import Mathlib

/-!
Verification of the devenv-harness runner (runner.py): slot path layout,
slot locking, slot acquisition, command execution pipeline, teardown
discipline, configuration loading, and the process runner, modelled as a
shallow embedding with explicit state and exit-code oracles.
-/

namespace DevenvHarness

/-- Filesystem paths modelled as their component lists. -/
abbrev FsPath := List String

/-- HarnessConfig: the dataclass from runner.py (slots, containerPrefix,
stateDir, artifactsDirDefault). -/
structure HarnessConfig where
  slots : Nat
  container_pfx : String
  state_dir : FsPath
  artifacts_dir_default : String
deriving Repr, DecidableEq

/-- slot_paths from runner.py: derives container name, slot directory,
work directory and lock path from a slot index. -/
def slot_paths (cfg : HarnessConfig) (slot : Nat) : String × FsPath × FsPath × FsPath :=
  let name := cfg.container_pfx ++ Nat.repr slot
  let slot_dir := cfg.state_dir ++ ["slots", Nat.repr slot]
  let work_dir := slot_dir ++ ["work"]
  let lock_path := slot_dir ++ ["slot.lock"]
  (name, slot_dir, work_dir, lock_path)

/-- The lock file path of a slot. -/
def lockPathOf (cfg : HarnessConfig) (slot : Nat) : FsPath :=
  (slot_paths cfg slot).2.2.2

/-- Numeric value of a decimal digit character. -/
def digitVal (c : Char) : Nat := c.toNat - 48

/-- Value of a decimal digit string. -/
def decVal (l : List Char) : Nat := l.foldl (fun acc c => 10 * acc + digitVal c) 0

/-- Specification version of the decimal digit list of a natural number. -/
def natDigits (n : Nat) : List Char :=
  if h : n / 10 = 0 then [Nat.digitChar (n % 10)]
  else natDigits (n / 10) ++ [Nat.digitChar (n % 10)]
termination_by n
decreasing_by
  exact Nat.div_lt_self (Nat.pos_of_ne_zero (fun h0 => h (by simp [h0]))) (by decide)

/-! SlotLock: try_lock takes a non-blocking exclusive flock on the slot
lock file; unlock releases it. The OS lock table is modelled as the list of
(process id, lock file path) pairs currently holding an exclusive lock; a
non-blocking exclusive flock succeeds exactly when no process holds the
file. A trace of try_lock and unlock calls from any set of OS processes is
replayed against this table. -/

/-- The OS flock table: pairs of (process id, locked file path). -/
abbrev LockTable := List (Nat × FsPath)

/-- Whether some process holds an exclusive lock on the given path. -/
def heldBy (s : LockTable) (path : FsPath) : Bool :=
  s.any (fun e => e.2 == path)

/-- One SlotLock call made by one OS process. -/
inductive LockEvent where
  | tryLock (pid : Nat) (path : FsPath)
  | unlock (pid : Nat) (path : FsPath)
deriving Repr, DecidableEq

/-- Effect of one SlotLock call on the OS lock table: try_lock succeeds
(and records the holder) only when the file is unheld, else it leaves the
table unchanged and the caller holds nothing; unlock removes the caller
hold and is a no-op for a non-holder. -/
def lockStep (s : LockTable) : LockEvent → LockTable
  | LockEvent.tryLock pid path => if heldBy s path then s else (pid, path) :: s
  | LockEvent.unlock pid path => s.filter (fun e => !(e == (pid, path)))

/-- Replay a trace of SlotLock calls from the initially empty lock table. -/
def runEvents (es : List LockEvent) : LockTable :=
  es.foldl lockStep []

/-- At most one process holds any given path. -/
def LockInv (s : LockTable) : Prop :=
  ∀ p1 p2 path, (p1, path) ∈ s → (p2, path) ∈ s → p1 = p2

/-! acquire_slot: scan slots 1..cfg.slots in increasing order each pass;
return the first slot whose try_lock succeeds; with wait off, raise
RuntimeError (no free slots) after a single pass; with wait on, sleep 0.2
seconds and rescan. Lock availability during each pass is an oracle
(a predicate on slot indices); the sequence of passes is a list of such
oracles, one per scan. -/

/-- The for-loop body of acquire_slot: starting at the given slot index
and trying the given number of further indices, return the first index
whose lock is free. -/
def scanSlots (free : Nat → Bool) : Nat → Nat → Option Nat
  | _, 0 => none
  | slot, n + 1 => if free slot then some slot else scanSlots free (slot + 1) n

/-- The sleep interval of the acquire_slot wait loop, in milliseconds
(asyncio.sleep 0.2). -/
def SLEEP_MS : Nat := 200

/-- Outcome of acquire_slot over a finite list of observed passes. -/
inductive AcquireOutcome where
  | got (slot : Nat) (sleptMs : Nat)
  | noFreeSlot
  | stillWaiting (sleptMs : Nat)
deriving Repr, DecidableEq

/-- acquire_slot from runner.py over a list of per-pass availability
oracles: each pass scans 1..slots in order; on success return that slot
and the total time slept; with wait off fail with noFreeSlot after the
first pass; with wait on sleep SLEEP_MS and rescan. -/
def acquire_slot (slots : Nat) (wait : Bool) : List (Nat → Bool) → AcquireOutcome
  | [] => AcquireOutcome.stillWaiting 0
  | free :: rest =>
    match scanSlots free 1 slots with
    | some s => AcquireOutcome.got s 0
    | none =>
      if wait then
        match acquire_slot slots wait rest with
        | AcquireOutcome.got s t => AcquireOutcome.got s (t + SLEEP_MS)
        | AcquireOutcome.noFreeSlot => AcquireOutcome.noFreeSlot
        | AcquireOutcome.stillWaiting t => AcquireOutcome.stillWaiting (t + SLEEP_MS)
      else AcquireOutcome.noFreeSlot

/-! Filesystem view of try_lock, for the frame property: try_lock first
ensures the lock file parent directories exist (mkdir with parents and
exist_ok), then opens the lock file in append mode (creating it if
absent), then attempts the non-blocking exclusive flock. The world records
which paths exist and which lock files are currently locked. -/

/-- Filesystem world: existing paths and currently locked lock files. -/
structure FsWorld where
  files : List FsPath
  locked : List FsPath
deriving Repr, DecidableEq

/-- Create a path if absent (mkdir exist_ok, or open in append mode). -/
def insertPath (p : FsPath) (fs : List FsPath) : List FsPath :=
  if p ∈ fs then fs else p :: fs

/-- The chain of directories created by mkdir with parents: every
nonempty prefix of the directory path. -/
def dirChain (dir : FsPath) : List FsPath :=
  dir.inits.filter (fun l => !l.isEmpty)

/-- mkdir(parents=True, exist_ok=True): create every missing ancestor. -/
def mkdir_p (dir : FsPath) (fs : List FsPath) : List FsPath :=
  (dirChain dir).foldl (fun acc d => insertPath d acc) fs

/-- SlotLock.try_lock viewed on the filesystem: make the parent directory
chain, open (create) the lock file, then take the non-blocking exclusive
flock, which fails iff the file is already locked. -/
def try_lock_fs (w : FsWorld) (lock_path : FsPath) : Bool × FsWorld :=
  let fs1 := mkdir_p lock_path.dropLast w.files
  let fs2 := insertPath lock_path fs1
  if lock_path ∈ w.locked then (false, FsWorld.mk fs2 w.locked)
  else (true, FsWorld.mk fs2 (insertPath lock_path w.locked))

/-- The acquire_slot for-loop threading the filesystem world, wait off:
try each slot from the given index, the given number of indices in total;
none models the RuntimeError for no free slots. -/
def acquireScanFs (cfg : HarnessConfig) : FsWorld → Nat → Nat → Option Nat × FsWorld
  | w, _, 0 => (none, w)
  | w, slot, n + 1 =>
    let r := try_lock_fs w (lockPathOf cfg slot)
    if r.1 then (some slot, r.2) else acquireScanFs cfg r.2 (slot + 1) n

/-- acquire_slot with wait off: a single pass over slots 1..cfg.slots. -/
def acquire_slot_nowait (cfg : HarnessConfig) (w : FsWorld) : Option Nat × FsWorld :=
  acquireScanFs cfg w 1 cfg.slots

/-! run_command: spawn the command with stdout and stderr merged into one
stream, read the stream line by line, append each line whole to the log
file when one is given and otherwise forward it to standard output, then
return the child process exit code. The merged stream is modelled as the
list of its lines; the destination as a sink receiving lines in order. -/

/-- Where run_command sends the drained lines. -/
inductive LogDest where
  | file (p : FsPath)
  | console
deriving Repr, DecidableEq

/-- The readline loop of run_command: take lines off the stream one at a time
and append each, whole, to the sink. -/
def drainLoop : List String → List String → List String
  | [], sink => sink
  | line :: rest, sink => drainLoop rest (sink ++ [line])

/-- run_command from runner.py: drain the merged output stream fully, writing
each line to the log file or to standard output, then return the child
exit code; a nonzero exit code is returned, not raised. -/
def run_command (outLines : List String) (exitCode : Nat) (log_file : Option FsPath) :
    Nat × LogDest × List String :=
  let dest := match log_file with
    | some p => LogDest.file p
    | none => LogDest.console
  let written := drainLoop outLines []
  (exitCode, dest, written)

/-! load_config: read the JSON config file; a missing file raises, the
keys slots, containerPrefix and stateDir raise KeyError when absent, and
artifactsDirDefault falls back to a default when absent. The file is
modelled as an optional record of optional fields. -/

/-- The parsed JSON configuration file, each key possibly absent. -/
structure ConfigJson where
  slotsField : Option Nat
  containerPfxField : Option String
  stateDirField : Option FsPath
  artifactsField : Option String
deriving Repr, DecidableEq

/-- load_config from runner.py: error for a missing file, KeyError for a
missing slots, containerPrefix or stateDir key, and the default value
"./artifacts" for a missing artifactsDirDefault key. -/
def load_config (file : Option ConfigJson) : Except String HarnessConfig :=
  match file with
  | none => Except.error "FileNotFoundError"
  | some d =>
    match d.slotsField with
    | none => Except.error "KeyError: slots"
    | some s =>
      match d.containerPfxField with
      | none => Except.error "KeyError: containerPrefix"
      | some cp =>
        match d.stateDirField with
        | none => Except.error "KeyError: stateDir"
        | some sd =>
          Except.ok (HarnessConfig.mk s cp sd (d.artifactsField.getD "./artifacts"))

/-! The run orchestrator, main from runner.py: after acquiring a slot it
runs, inside a try block, the pre-clean of the work directory, the rsync
of the project, the container start and the command loop, and in the
finally block the container stop, the conditional work directory removal
and the slot lock release. External command exit codes are oracles in a
RunEnv; the run is the list of performed actions plus the try-block
outcome (a raised error or a returned exit code). -/

/-- Python format 02d: zero-pad the decimal form to at least two digits. -/
def pad2 (n : Nat) : String := if n < 10 then "0" ++ Nat.repr n else Nat.repr n

/-- Per-command log file name cmd-NN.log. -/
def cmdLogName (idx : Nat) : String := "cmd-" ++ pad2 idx ++ ".log"

/-- Content of the FAILED sentinel for a failed command. -/
def failedText (idx : Nat) (cmd : String) (rc : Nat) : String :=
  "Command " ++ Nat.repr idx ++ " failed: " ++ cmd ++ "\nexit=" ++ Nat.repr rc ++ "\n"

/-- Observable actions of one run, in execution order. -/
inductive Action where
  | rmWorkPre (rc : Nat)
  | mkWork
  | rsyncRun (rc : Nat)
  | startRun (rc : Nat)
  | cmdRun (idx : Nat) (shellCmd : String) (log : String)
  | writeFailed (text : String)
  | writeOk (text : String)
  | stopRun (rc : Nat)
  | rmWorkPost (rc : Nat)
  | unlockSlot
deriving Repr, DecidableEq

/-- Errors raised inside the try block (RuntimeError in runner.py). -/
inductive RunError where
  | rsyncFailed (rc : Nat)
  | startFailed (rc : Nat)
deriving Repr, DecidableEq

/-- Oracle environment: exit codes of the external tool invocations and
the CLI flags that steer the run. -/
structure RunEnv where
  work_dir_exists : Bool
  rm_pre_rc : Nat
  rsync_rc : Nat
  start_rc : Nat
  cmd_rc : Nat → String → Nat
  stop_rc : Nat
  rm_post_rc : Nat
  keep_workdir : Bool

/-- The command loop of main: run each command in order with its own
cmd-NN.log starting at index 1; on the first nonzero exit write the FAILED
sentinel and return that exit code at once; after a full pass write the OK
sentinel and return 0. -/
def execCmds (rcOf : Nat → String → Nat) : Nat → List String → List Action × Except RunError Nat
  | _, [] => ([Action.writeOk "success\n"], Except.ok 0)
  | idx, c :: rest =>
    let rc := rcOf idx c
    let act := Action.cmdRun idx ("cd /work && " ++ c) (cmdLogName idx)
    if rc ≠ 0 then
      ([act, Action.writeFailed (failedText idx c rc)], Except.ok rc)
    else
      let r := execCmds rcOf (idx + 1) rest
      (act :: r.1, r.2)

/-- The try block of main: pre-clean the work directory (removal exit code
ignored), recreate it, rsync the project (raising on nonzero exit), start
the container (raising on nonzero exit), then run the command loop. -/
def runBody (env : RunEnv) (cmds : List String) : List Action × Except RunError Nat :=
  let pre := (if env.work_dir_exists then [Action.rmWorkPre env.rm_pre_rc] else [])
    ++ [Action.mkWork]
  if env.rsync_rc ≠ 0 then
    (pre ++ [Action.rsyncRun env.rsync_rc],
      Except.error (RunError.rsyncFailed env.rsync_rc))
  else if env.start_rc ≠ 0 then
    (pre ++ [Action.rsyncRun env.rsync_rc, Action.startRun env.start_rc],
      Except.error (RunError.startFailed env.start_rc))
  else
    let r := execCmds env.cmd_rc 1 cmds
    (pre ++ [Action.rsyncRun env.rsync_rc, Action.startRun env.start_rc] ++ r.1, r.2)

/-- The finally block of main: stop the container (exit code ignored),
remove the work directory unless keep-workdir was requested (exit code
ignored), and release the slot lock last. -/
def teardown (env : RunEnv) : List Action :=
  [Action.stopRun env.stop_rc]
    ++ (if env.keep_workdir then [] else [Action.rmWorkPost env.rm_post_rc])
    ++ [Action.unlockSlot]

/-- main: the try block followed unconditionally by the finally block; the
try-block outcome (return or raised error) is unchanged by teardown. -/
def mainRun (env : RunEnv) (cmds : List String) : List Action × Except RunError Nat :=
  ((runBody env cmds).1 ++ teardown env, (runBody env cmds).2)

/-- The process exit code: a value returned by main becomes the exit code
via SystemExit; an error raised inside main propagates out of asyncio.run
and the interpreter exits with code 1. -/
def processExit (env : RunEnv) (cmds : List String) : Nat :=
  match (mainRun env cmds).2 with
  | Except.ok rc => rc
  | Except.error _ => 1

/-- Writes of a terminal sentinel file among the actions. -/
def isSentinelWrite : Action → Bool
  | Action.writeOk _ => true
  | Action.writeFailed _ => true
  | _ => false

/-- How many sentinel files a run writes. -/
def sentinelCount (acts : List Action) : Nat := acts.countP isSentinelWrite

/-- The expected action of the command at zero-based position j when the
loop starts at index s. -/
def cmdActionAt (cmds : List String) (s j : Nat) : Action :=
  Action.cmdRun (s + j) ("cd /work && " ++ cmds.getD j "") (cmdLogName (s + j))

/-- Whether load_config returned a configuration. -/
def configOk : Except String HarnessConfig → Bool
  | Except.ok _ => true
  | Except.error _ => false

theorem digitVal_digitChar : ∀ d : Nat, d < 10 → digitVal (Nat.digitChar d) = d := by decide

theorem decVal_append (l : List Char) (c : Char) :
    decVal (l ++ [c]) = 10 * decVal l + digitVal c := by
  simp [decVal, List.foldl_append]

theorem decVal_natDigits (n : Nat) : decVal (natDigits n) = n := by
  induction n using Nat.strong_induction_on with
  | _ n ih =>
    by_cases h : n / 10 = 0
    · rw [natDigits, dif_pos h]
      have hn : n < 10 := by omega
      have hm : n % 10 = n := Nat.mod_eq_of_lt hn
      simp [decVal, hm, digitVal_digitChar n hn]
    · rw [natDigits, dif_neg h, decVal_append]
      have hlt : n / 10 < n := by omega
      rw [ih _ hlt, digitVal_digitChar _ (Nat.mod_lt n (by decide))]
      omega

theorem toDigitsCore_eq (f : Nat) : ∀ (n : Nat) (ds : List Char), n < f →
    Nat.toDigitsCore 10 f n ds = natDigits n ++ ds := by
  induction f with
  | zero => intro n ds h; omega
  | succ f ih =>
    intro n ds h
    by_cases h0 : n / 10 = 0
    · simp only [Nat.toDigitsCore, h0, if_true]
      rw [natDigits, dif_pos h0]
      rfl
    · simp only [Nat.toDigitsCore, h0, if_false]
      have hf : n / 10 < f := by omega
      rw [ih (n / 10) _ hf]
      conv_rhs => rw [natDigits]
      rw [dif_neg h0, List.append_assoc]
      rfl

theorem toDigits_eq_natDigits (n : Nat) : Nat.toDigits 10 n = natDigits n := by
  rw [Nat.toDigits, toDigitsCore_eq (n + 1) n [] (Nat.lt_succ_self n), List.append_nil]

theorem natRepr_injective (m n : Nat) (h : Nat.repr m = Nat.repr n) : m = n := by
  have h2 : Nat.toDigits 10 m = Nat.toDigits 10 n := by
    have hd := congrArg String.data h
    simpa [Nat.repr, List.asString] using hd
  have h3 := congrArg decVal h2
  rwa [toDigits_eq_natDigits, toDigits_eq_natDigits, decVal_natDigits,
    decVal_natDigits] at h3

/-- C10: slot_paths is deterministic and injective in the slot index: for a
fixed configuration, distinct indices yield distinct slot directories and
distinct lock paths, so per-slot locks never alias. -/
theorem C10_slot_paths_injective (cfg : HarnessConfig) (i j : Nat) (hij : i ≠ j) :
    (slot_paths cfg i).2.1 ≠ (slot_paths cfg j).2.1 ∧
    (slot_paths cfg i).2.2.2 ≠ (slot_paths cfg j).2.2.2 := by
  have key : Nat.repr i ≠ Nat.repr j := fun h => hij (natRepr_injective i j h)
  constructor
  · intro h
    simp only [slot_paths] at h
    exact key (by simpa using List.append_cancel_left h)
  · intro h
    simp only [slot_paths, List.append_assoc] at h
    exact key (by simpa using List.append_cancel_left h)

/-- Witness for C10 at a concrete configuration and indices 1 and 2. -/
theorem C10_slot_paths_injective_witness :
    (slot_paths ⟨2, "dev", ["state"], "art"⟩ 1).2.1 ≠
      (slot_paths ⟨2, "dev", ["state"], "art"⟩ 2).2.1 ∧
    (slot_paths ⟨2, "dev", ["state"], "art"⟩ 1).2.2.2 ≠
      (slot_paths ⟨2, "dev", ["state"], "art"⟩ 2).2.2.2 :=
  C10_slot_paths_injective ⟨2, "dev", ["state"], "art"⟩ 1 2 (by decide)

theorem lockInv_step (s : LockTable) (e : LockEvent) (h : LockInv s) :
    LockInv (lockStep s e) := by
  cases e with
  | tryLock pid path =>
    simp only [lockStep]
    by_cases hh : heldBy s path
    · simpa [hh] using h
    · simp only [hh, if_false]
      intro p1 p2 pp h1 h2
      have hfree : ∀ e ∈ s, e.2 ≠ path := by
        intro e he
        have : ¬ (e.2 == path) = true := by
          intro hc
          exact hh (List.any_eq_true.mpr ⟨e, he, hc⟩)
        simpa using this
      rcases List.mem_cons.mp h1 with h1 | h1 <;>
        rcases List.mem_cons.mp h2 with h2 | h2
      · rw [Prod.mk.injEq] at h1 h2
        omega
      · rw [Prod.mk.injEq] at h1
        exact absurd rfl (h1.2 ▸ hfree _ h2)
      · rw [Prod.mk.injEq] at h2
        exact absurd rfl (h2.2 ▸ hfree _ h1)
      · exact h p1 p2 pp h1 h2
  | unlock pid path =>
    intro p1 p2 pp h1 h2
    exact h p1 p2 pp (List.mem_of_mem_filter h1) (List.mem_of_mem_filter h2)

theorem lockInv_run (es : List LockEvent) : LockInv (runEvents es) := by
  have gen : ∀ (l : List LockEvent) (s : LockTable), LockInv s →
      LockInv (l.foldl lockStep s) := by
    intro l
    induction l with
    | nil => intro s hs; exact hs
    | cons e rest ih =>
      intro s hs
      exact ih (lockStep s e) (lockInv_step s e hs)
  exact gen es [] (by intro p1 p2 path h1 _; cases h1)

/-- C1: across any trace of concurrent acquisition and release attempts by
any OS processes, no two holders ever hold the same slot lock file (so no
two concurrent holders share a slot index), and at most N distinct slots of
an N-slot pool are held simultaneously. -/
theorem C1_slot_mutual_exclusion (es : List LockEvent) (cfg : HarnessConfig)
    (i : Nat) (p1 p2 : Nat)
    (h1 : (p1, lockPathOf cfg i) ∈ runEvents es)
    (h2 : (p2, lockPathOf cfg i) ∈ runEvents es) :
    p1 = p2 ∧
      ((Finset.Icc 1 cfg.slots).filter
        (fun s => heldBy (runEvents es) (lockPathOf cfg s) = true)).card ≤ cfg.slots := by
  refine ⟨lockInv_run es p1 p2 (lockPathOf cfg i) h1 h2, ?_⟩
  calc ((Finset.Icc 1 cfg.slots).filter
        (fun s => heldBy (runEvents es) (lockPathOf cfg s) = true)).card
      ≤ (Finset.Icc 1 cfg.slots).card := Finset.card_filter_le _ _
    _ = cfg.slots := by rw [Nat.card_Icc]; omega

/-- Witness for C1: one process acquires slot 1 of a two-slot pool. -/
theorem C1_slot_mutual_exclusion_witness :
    (7 : Nat) = 7 ∧
      ((Finset.Icc 1 (2 : Nat)).filter
        (fun s => heldBy
          (runEvents [LockEvent.tryLock 7 (lockPathOf ⟨2, "dev", ["state"], "art"⟩ 1)])
          (lockPathOf ⟨2, "dev", ["state"], "art"⟩ s) = true)).card ≤ 2 :=
  C1_slot_mutual_exclusion
    [LockEvent.tryLock 7 (lockPathOf ⟨2, "dev", ["state"], "art"⟩ 1)]
    ⟨2, "dev", ["state"], "art"⟩ 1 7 7 (by decide) (by decide)

theorem scanSlots_some (free : Nat → Bool) :
    ∀ (n start s : Nat), scanSlots free start n = some s →
      free s = true ∧ start ≤ s ∧ s < start + n ∧
        ∀ t, start ≤ t → t < s → free t = false := by
  intro n
  induction n with
  | zero => intro start s h; cases h
  | succ n ih =>
    intro start s h
    rw [scanSlots] at h
    by_cases hf : free start
    · rw [if_pos hf] at h
      cases h
      exact ⟨hf, Nat.le_refl _, by omega, fun t h1 h2 => absurd h1 (by omega)⟩
    · rw [if_neg hf] at h
      obtain ⟨a, b, c, d⟩ := ih (start + 1) s h
      refine ⟨a, by omega, by omega, fun t h1 h2 => ?_⟩
      by_cases ht : t = start
      · subst ht
        exact Bool.eq_false_iff.mpr hf
      · exact d t (by omega) h2

theorem scanSlots_none (free : Nat → Bool) :
    ∀ (n start : Nat), scanSlots free start n = none →
      ∀ t, start ≤ t → t < start + n → free t = false := by
  intro n
  induction n with
  | zero => intro start _ t h1 h2; omega
  | succ n ih =>
    intro start h t h1 h2
    rw [scanSlots] at h
    by_cases hf : free start
    · rw [if_pos hf] at h; cases h
    · rw [if_neg hf] at h
      by_cases ht : t = start
      · subst ht; exact Bool.eq_false_iff.mpr hf
      · exact ih (start + 1) h t (by omega) (by omega)

/-- C6: each pass scans slots 1..slots in increasing order and the first
pass with a free slot returns its lowest free slot immediately; with wait
off and no free slot, the single pass fails with noFreeSlot; with wait on
the loop never fails with noFreeSlot, and each exhausted pass costs exactly
one fixed 200 ms sleep before the rescan. -/
theorem C6_acquire_slot_scan (slots : Nat) (wait : Bool) (f0 : Nat → Bool)
    (rest passes : List (Nat → Bool)) (s k : Nat) :
    SLEEP_MS = 200 ∧
    (scanSlots f0 1 slots = some s →
      acquire_slot slots wait (f0 :: rest) = AcquireOutcome.got s 0 ∧
        f0 s = true ∧ 1 ≤ s ∧ s ≤ slots ∧
        ∀ t, 1 ≤ t → t < s → f0 t = false) ∧
    (scanSlots f0 1 slots = none →
      acquire_slot slots false (f0 :: rest) = AcquireOutcome.noFreeSlot) ∧
    (acquire_slot slots true passes ≠ AcquireOutcome.noFreeSlot) ∧
    ((∀ j, j < k → scanSlots (passes.getD j (fun _ => false)) 1 slots = none) →
      k < passes.length →
      scanSlots (passes.getD k (fun _ => false)) 1 slots = some s →
      acquire_slot slots true passes = AcquireOutcome.got s (SLEEP_MS * k)) := by
  refine ⟨rfl, ?_, ?_, ?_, ?_⟩
  · intro h
    obtain ⟨a, b, c, d⟩ := scanSlots_some f0 slots 1 s h
    exact ⟨by simp [acquire_slot, h], a, b, by omega, d⟩
  · intro h
    simp [acquire_slot, h]
  · clear k s f0 rest
    induction passes with
    | nil => simp [acquire_slot]
    | cons f rest ih =>
      rw [acquire_slot]
      cases hscan : scanSlots f 1 slots with
      | some s => simp
      | none =>
        simp only [if_true]
        cases hrec : acquire_slot slots true rest with
        | got s t => simp
        | noFreeSlot => exact absurd hrec ih
        | stillWaiting t => simp
  · clear wait
    induction passes generalizing k with
    | nil => intro _ hk _; simp at hk
    | cons f rest ih =>
      intro hnone hk hsome
      cases k with
      | zero =>
        simp only [List.getD_cons_zero] at hsome
        simp [acquire_slot, hsome]
      | succ k =>
        have h0 : scanSlots f 1 slots = none := by
          have := hnone 0 (by omega)
          simpa using this
        rw [acquire_slot, h0]
        simp only [if_true]
        have hrec := ih k
          (fun j hj => by
            have := hnone (j + 1) (by omega)
            simpa using this)
          (by simpa using hk)
          (by simpa using hsome)
        rw [hrec]
        show AcquireOutcome.got s (SLEEP_MS * k + SLEEP_MS) =
          AcquireOutcome.got s (SLEEP_MS * (k + 1))
        rfl

/-- Witness for C6 at a concrete pool: two slots, slot 1 busy on the first
pass, both busy on no pass afterwards; slot 2 is the first free slot. -/
theorem C6_acquire_slot_scan_witness :
    SLEEP_MS = 200 ∧
    (scanSlots (fun t => t == 2) 1 2 = some 2 →
      acquire_slot 2 false [fun t => t == 2] = AcquireOutcome.got 2 0 ∧
        (fun t : Nat => t == 2) 2 = true ∧ 1 ≤ 2 ∧ 2 ≤ 2 ∧
        ∀ t, 1 ≤ t → t < 2 → (fun t : Nat => t == 2) t = false) ∧
    (scanSlots (fun t => t == 2) 1 2 = none →
      acquire_slot 2 false [fun t => t == 2] = AcquireOutcome.noFreeSlot) ∧
    (acquire_slot 2 true [fun t => t == 2] ≠ AcquireOutcome.noFreeSlot) ∧
    ((∀ j, j < 0 → scanSlots ([fun t : Nat => t == 2].getD j (fun _ => false)) 1 2 = none) →
      0 < [fun t : Nat => t == 2].length →
      scanSlots ([fun t : Nat => t == 2].getD 0 (fun _ => false)) 1 2 = some 2 →
      acquire_slot 2 true [fun t => t == 2] = AcquireOutcome.got 2 (SLEEP_MS * 0)) :=
  C6_acquire_slot_scan 2 false (fun t => t == 2) [] [fun t => t == 2] 2 0

theorem insertPath_mem (p : FsPath) (fs : List FsPath) (h : p ∈ fs) :
    insertPath p fs = fs := if_pos h

theorem foldl_insertPath_mem : ∀ (l : List FsPath) (fs : List FsPath),
    (∀ d ∈ l, d ∈ fs) → l.foldl (fun acc d => insertPath d acc) fs = fs := by
  intro l
  induction l with
  | nil => intro fs _; rfl
  | cons d rest ih =>
    intro fs h
    rw [List.foldl_cons, insertPath_mem d fs (h d (List.mem_cons_self d rest))]
    exact ih fs (fun e he => h e (List.mem_cons_of_mem d he))

theorem mkdir_p_mem (dir : FsPath) (fs : List FsPath)
    (h : ∀ d ∈ dirChain dir, d ∈ fs) : mkdir_p dir fs = fs :=
  foldl_insertPath_mem (dirChain dir) fs h

theorem try_lock_fs_held (w : FsWorld) (lock_path : FsPath)
    (hlock : lock_path ∈ w.locked) (hfile : lock_path ∈ w.files)
    (hdirs : ∀ d ∈ dirChain lock_path.dropLast, d ∈ w.files) :
    try_lock_fs w lock_path = (false, w) := by
  rw [try_lock_fs]
  simp only [mkdir_p_mem lock_path.dropLast w.files hdirs,
    insertPath_mem lock_path w.files hfile, if_pos hlock]

theorem acquireScanFs_all_held (cfg : HarnessConfig) (w : FsWorld) :
    ∀ (n slot : Nat),
      (∀ i, slot ≤ i → i < slot + n →
        lockPathOf cfg i ∈ w.locked ∧ lockPathOf cfg i ∈ w.files ∧
          ∀ d ∈ dirChain (lockPathOf cfg i).dropLast, d ∈ w.files) →
      acquireScanFs cfg w slot n = (none, w) := by
  intro n
  induction n with
  | zero => intro slot _; rfl
  | succ n ih =>
    intro slot h
    obtain ⟨h1, h2, h3⟩ := h slot (Nat.le_refl _) (by omega)
    rw [acquireScanFs]
    simp only [try_lock_fs_held w (lockPathOf cfg slot) h1 h2 h3, if_false]
    exact ih (slot + 1) (fun i hi1 hi2 => h i (by omega) (by omega))

/-- C7: with wait off and every slot of the pool already held (its lock
file and slot directory chain existing, as any holder of try_lock ensures),
the run fails fast with the no-free-slot error and the filesystem is left
exactly as it was: no path under any slot directory is created, modified
or removed. -/
theorem C7_nowait_no_mutation (cfg : HarnessConfig) (w : FsWorld)
    (h : ∀ i, i < cfg.slots →
      lockPathOf cfg (i + 1) ∈ w.locked ∧ lockPathOf cfg (i + 1) ∈ w.files ∧
        ∀ d ∈ dirChain (lockPathOf cfg (i + 1)).dropLast, d ∈ w.files) :
    acquire_slot_nowait cfg w = (none, w) := by
  refine acquireScanFs_all_held cfg w cfg.slots 1 (fun i hi1 hi2 => ?_)
  have := h (i - 1) (by omega)
  have heq : i - 1 + 1 = i := by omega
  rwa [heq] at this

/-- Witness for C7: a two-slot pool with both slot locks held and all slot
paths present; the failed attempt leaves the world untouched. -/
theorem C7_nowait_no_mutation_witness :
    acquire_slot_nowait ⟨2, "dev", ["state"], "art"⟩
      (FsWorld.mk
        [["state"], ["state", "slots"], ["state", "slots", "1"],
          ["state", "slots", "2"], ["state", "slots", "1", "slot.lock"],
          ["state", "slots", "2", "slot.lock"]]
        [["state", "slots", "1", "slot.lock"], ["state", "slots", "2", "slot.lock"]]) =
      (none,
        FsWorld.mk
          [["state"], ["state", "slots"], ["state", "slots", "1"],
            ["state", "slots", "2"], ["state", "slots", "1", "slot.lock"],
            ["state", "slots", "2", "slot.lock"]]
          [["state", "slots", "1", "slot.lock"], ["state", "slots", "2", "slot.lock"]]) :=
  C7_nowait_no_mutation ⟨2, "dev", ["state"], "art"⟩
    (FsWorld.mk
      [["state"], ["state", "slots"], ["state", "slots", "1"],
        ["state", "slots", "2"], ["state", "slots", "1", "slot.lock"],
        ["state", "slots", "2", "slot.lock"]]
      [["state", "slots", "1", "slot.lock"], ["state", "slots", "2", "slot.lock"]])
    (by decide)

theorem drainLoop_eq : ∀ (l sink : List String), drainLoop l sink = sink ++ l := by
  intro l
  induction l with
  | nil => intro sink; simp [drainLoop]
  | cons line rest ih =>
    intro sink
    rw [drainLoop, ih, List.append_assoc]
    rfl

/-- C9: run_command returns the child exit code unchanged (nonzero exits are
returned, never raised), and before completing it has drained the whole
merged stream: the sink holds every line, whole and in production order,
directed to the log file when given and to standard output otherwise. -/
theorem C9_run_command_drains (outLines : List String) (exitCode : Nat)
    (log_file : Option FsPath) :
    (run_command outLines exitCode log_file).1 = exitCode ∧
    (run_command outLines exitCode log_file).2.2 = outLines ∧
    (run_command outLines exitCode none).2.1 = LogDest.console ∧
    ∀ p, (run_command outLines exitCode (some p)).2.1 = LogDest.file p := by
  refine ⟨rfl, ?_, rfl, fun p => rfl⟩
  show drainLoop outLines [] = outLines
  rw [drainLoop_eq, List.nil_append]

theorem cmdActionAt_shift (c : String) (rest : List String) (s a : Nat) :
    cmdActionAt rest (s + 1) a = cmdActionAt (c :: rest) s (a + 1) := by
  have heq : s + 1 + a = s + (a + 1) := by omega
  simp [cmdActionAt, heq]

theorem map_cmdActionAt_shift (c : String) (rest : List String) (s n : Nat) :
    List.map (cmdActionAt rest (s + 1)) (List.range n) =
      List.map (cmdActionAt (c :: rest) s ∘ Nat.succ) (List.range n) :=
  List.map_congr_left (fun a _ => cmdActionAt_shift c rest s a)

theorem execCmds_success (rcOf : Nat → String → Nat) :
    ∀ (cmds : List String) (s : Nat),
      (∀ j, j < cmds.length → rcOf (s + j) (cmds.getD j "") = 0) →
      (execCmds rcOf s cmds).1 =
          (List.range cmds.length).map (cmdActionAt cmds s)
            ++ [Action.writeOk "success\n"] ∧
        (execCmds rcOf s cmds).2 = Except.ok 0 := by
  intro cmds
  induction cmds with
  | nil => intro s _; exact ⟨rfl, rfl⟩
  | cons c rest ih =>
    intro s h
    have h0 : rcOf s c = 0 := by
      have := h 0 (by simp)
      simpa using this
    have hr := ih (s + 1) (fun j hj => by
      have := h (j + 1) (by simpa using Nat.succ_lt_succ hj)
      have heq : s + 1 + j = s + (j + 1) := by omega
      rw [heq]
      simpa using this)
    simp only [execCmds, h0, ne_eq, not_true_eq_false, if_false]
    refine ⟨?_, hr.2⟩
    rw [hr.1, List.length_cons, List.range_succ_eq_map, List.map_cons, List.map_map,
      List.cons_append, map_cmdActionAt_shift c rest s rest.length]
    simp [cmdActionAt]

theorem execCmds_fail (rcOf : Nat → String → Nat) :
    ∀ (cmds : List String) (s k : Nat), k < cmds.length →
      rcOf (s + k) (cmds.getD k "") ≠ 0 →
      (∀ j, j < k → rcOf (s + j) (cmds.getD j "") = 0) →
      (execCmds rcOf s cmds).1 =
          (List.range k).map (cmdActionAt cmds s)
            ++ [cmdActionAt cmds s k,
                Action.writeFailed
                  (failedText (s + k) (cmds.getD k "") (rcOf (s + k) (cmds.getD k "")))] ∧
        (execCmds rcOf s cmds).2 = Except.ok (rcOf (s + k) (cmds.getD k "")) := by
  intro cmds
  induction cmds with
  | nil => intro s k hk; simp at hk
  | cons c rest ih =>
    intro s k hk hfail hzero
    cases k with
    | zero =>
      have hf : rcOf s c ≠ 0 := by simpa using hfail
      simp only [execCmds, hf, ne_eq, if_true, if_pos, not_false_iff]
      constructor
      · simp [cmdActionAt, failedText]
      · simp
    | succ k =>
      have h0 : rcOf s c = 0 := by
        have := hzero 0 (by omega)
        simpa using this
      have heq : s + 1 + k = s + (k + 1) := by omega
      have hrec := ih (s + 1) k (by simpa using hk)
        (by
          rw [heq]
          simpa using hfail)
        (fun j hj => by
          have := hzero (j + 1) (by omega)
          have heq2 : s + 1 + j = s + (j + 1) := by omega
          rw [heq2]
          simpa using this)
      simp only [execCmds, h0, ne_eq, not_true_eq_false, if_false]
      rw [heq] at hrec
      refine ⟨?_, by
        rw [hrec.2]
        simp⟩
      rw [hrec.1, List.range_succ_eq_map, List.map_cons, List.map_map, List.cons_append,
        map_cmdActionAt_shift c rest s k, cmdActionAt_shift c rest s k]
      simp [cmdActionAt]

/-- C4: commands run strictly in input order from index 1, each with log
cmd-NN.log; when every command exits zero the OK sentinel is written and 0
returned; when command k is the first to exit nonzero, the FAILED sentinel
recording the 1-based index, command text and exit code is written, later
commands never run, and that exit code is returned immediately. -/
theorem C4_commands_fail_fast (rcOf : Nat → String → Nat) (cmds : List String) :
    ((∀ j, j < cmds.length → rcOf (1 + j) (cmds.getD j "") = 0) →
      (execCmds rcOf 1 cmds).1 =
          (List.range cmds.length).map (cmdActionAt cmds 1)
            ++ [Action.writeOk "success\n"] ∧
        (execCmds rcOf 1 cmds).2 = Except.ok 0) ∧
    (∀ k, k < cmds.length →
      rcOf (1 + k) (cmds.getD k "") ≠ 0 →
      (∀ j, j < k → rcOf (1 + j) (cmds.getD j "") = 0) →
      (execCmds rcOf 1 cmds).1 =
          (List.range k).map (cmdActionAt cmds 1)
            ++ [cmdActionAt cmds 1 k,
                Action.writeFailed
                  (failedText (1 + k) (cmds.getD k "") (rcOf (1 + k) (cmds.getD k "")))] ∧
        (execCmds rcOf 1 cmds).2 = Except.ok (rcOf (1 + k) (cmds.getD k ""))) :=
  ⟨fun h => execCmds_success rcOf cmds 1 h,
   fun k hk hf hz => execCmds_fail rcOf cmds 1 k hk hf hz⟩

/-- Witness for C4: three commands where the second fails with exit code
3; the first two run in order, the FAILED sentinel names index 2, the
command text and the exit code, the third command never runs, and 3 is
returned. -/
theorem C4_commands_fail_fast_witness :
    execCmds (fun i _ => if i == 2 then 3 else 0) 1 ["echo A", "false", "echo C"] =
      ([Action.cmdRun 1 "cd /work && echo A" "cmd-01.log",
        Action.cmdRun 2 "cd /work && false" "cmd-02.log",
        Action.writeFailed "Command 2 failed: false\nexit=3\n"],
       Except.ok 3) := by
  have h := (C4_commands_fail_fast (fun i _ => if i == 2 then 3 else 0)
    ["echo A", "false", "echo C"]).2 1 (by decide) (by decide)
    (fun j hj => by interval_cases j; rfl)
  have hpair : execCmds (fun i _ => if i == 2 then 3 else 0) 1
      ["echo A", "false", "echo C"] =
      ((execCmds (fun i _ => if i == 2 then 3 else 0) 1 ["echo A", "false", "echo C"]).1,
       (execCmds (fun i _ => if i == 2 then 3 else 0) 1 ["echo A", "false", "echo C"]).2) :=
    rfl
  rw [hpair, h.1, h.2]
  rfl

/-- C2: on every exit path of the pipeline (success, command failure, or
an error raised by the rsync or container-start stage) the finally block
runs the fixed teardown sequence: container stop first with its exit code
ignored, then work directory removal exactly when keep-workdir was not
requested, and the slot lock release runs last; teardown never changes
the run outcome, so no teardown exit code is escalated. -/
theorem C2_teardown_always (env : RunEnv) (cmds : List String) :
    (mainRun env cmds).1 =
      (runBody env cmds).1 ++
        ([Action.stopRun env.stop_rc]
          ++ (if env.keep_workdir then [] else [Action.rmWorkPost env.rm_post_rc])
          ++ [Action.unlockSlot]) ∧
    (mainRun env cmds).1.getLast? = some Action.unlockSlot ∧
    (mainRun env cmds).2 = (runBody env cmds).2 := by
  refine ⟨rfl, ?_, rfl⟩
  show ((runBody env cmds).1 ++ teardown env).getLast? = some Action.unlockSlot
  rw [teardown, ← List.append_assoc, List.getLast?_concat]

theorem sentinelCount_execCmds (rcOf : Nat → String → Nat) :
    ∀ (cmds : List String) (s : Nat), sentinelCount (execCmds rcOf s cmds).1 = 1 := by
  intro cmds
  induction cmds with
  | nil => intro s; rfl
  | cons c rest ih =>
    intro s
    have ihs : List.countP isSentinelWrite (execCmds rcOf (s + 1) rest).1 = 1 := by
      simpa [sentinelCount] using ih (s + 1)
    by_cases h : rcOf s c = 0
    · simp [execCmds, h, sentinelCount, List.countP_cons, isSentinelWrite, ihs]
    · simp [execCmds, h, sentinelCount, List.countP_cons, isSentinelWrite]

theorem sentinelCount_teardown (env : RunEnv) :
    sentinelCount (teardown env) = 0 := by
  by_cases h : env.keep_workdir <;>
    simp [teardown, h, sentinelCount, isSentinelWrite]

theorem sentinelCount_runBody (env : RunEnv) (cmds : List String) :
    sentinelCount (runBody env cmds).1 =
      if env.rsync_rc = 0 ∧ env.start_rc = 0 then 1 else 0 := by
  have hpre : List.countP isSentinelWrite
      ((if env.work_dir_exists then [Action.rmWorkPre env.rm_pre_rc] else [])
        ++ [Action.mkWork]) = 0 := by
    by_cases h : env.work_dir_exists <;> simp [h, isSentinelWrite]
  by_cases hr : env.rsync_rc = 0
  · by_cases hs : env.start_rc = 0
    · have hc : List.countP isSentinelWrite (execCmds env.cmd_rc 1 cmds).1 = 1 := by
        simpa [sentinelCount] using sentinelCount_execCmds env.cmd_rc cmds 1
      simp [runBody, hr, hs, sentinelCount, List.countP_append, hpre, hc,
        isSentinelWrite]
    · simp [runBody, hr, hs, sentinelCount, List.countP_append, hpre, isSentinelWrite]
  · simp [runBody, hr, sentinelCount, List.countP_append, hpre, isSentinelWrite]

/-- C3 (amended): a run never writes both sentinels; a run that reaches
command execution (rsync and container start both succeeded) writes
exactly one of OK and FAILED; a run failing in the rsync or container
start stage writes neither sentinel. -/
theorem C3_sentinel_at_most_one (env : RunEnv) (cmds : List String) :
    sentinelCount (mainRun env cmds).1 ≤ 1 ∧
    (env.rsync_rc = 0 → env.start_rc = 0 →
      sentinelCount (mainRun env cmds).1 = 1) := by
  have htd : List.countP isSentinelWrite (teardown env) = 0 := by
    simpa [sentinelCount] using sentinelCount_teardown env
  have hmain : sentinelCount (mainRun env cmds).1 = sentinelCount (runBody env cmds).1 := by
    show List.countP isSentinelWrite ((runBody env cmds).1 ++ teardown env) = _
    rw [List.countP_append, htd]
    rfl
  rw [hmain, sentinelCount_runBody]
  constructor
  · split <;> omega
  · intro h1 h2
    simp [h1, h2]

/-- Counterexample to C3 as stated: a run whose rsync stage fails (exit
code 1) completes with teardown but writes neither OK nor FAILED, so the
artifacts directory does not contain exactly one sentinel. -/
theorem C3_sentinel_counterexample :
    sentinelCount (mainRun (RunEnv.mk true 0 1 0 (fun _ _ => 0) 0 0 false) ["true"]).1
      ≠ 1 := by decide

/-- Witness for C3 at a run that reaches command execution. -/
theorem C3_sentinel_at_most_one_witness :
    sentinelCount (mainRun (RunEnv.mk true 0 0 0 (fun _ _ => 0) 0 0 false) ["true"]).1
        ≤ 1 ∧
      sentinelCount (mainRun (RunEnv.mk true 0 0 0 (fun _ _ => 0) 0 0 false) ["true"]).1
        = 1 :=
  ⟨(C3_sentinel_at_most_one (RunEnv.mk true 0 0 0 (fun _ _ => 0) 0 0 false) ["true"]).1,
   (C3_sentinel_at_most_one (RunEnv.mk true 0 0 0 (fun _ _ => 0) 0 0 false) ["true"]).2
     rfl rfl⟩

/-- C5 (amended): the process exit code is 0 on full success and the first
failing command exit code on a command failure, but a synchronizer or
container-start failure raises an error out of main, so the interpreter
exits with code 1, not with the exit code of that stage. -/
theorem C5_exit_codes (env : RunEnv) (cmds : List String) :
    (env.rsync_rc ≠ 0 → processExit env cmds = 1) ∧
    (env.rsync_rc = 0 → env.start_rc ≠ 0 → processExit env cmds = 1) ∧
    (env.rsync_rc = 0 → env.start_rc = 0 →
      (∀ j, j < cmds.length → env.cmd_rc (1 + j) (cmds.getD j "") = 0) →
      processExit env cmds = 0) ∧
    (env.rsync_rc = 0 → env.start_rc = 0 →
      ∀ k, k < cmds.length →
        env.cmd_rc (1 + k) (cmds.getD k "") ≠ 0 →
        (∀ j, j < k → env.cmd_rc (1 + j) (cmds.getD j "") = 0) →
        processExit env cmds = env.cmd_rc (1 + k) (cmds.getD k "")) := by
  refine ⟨?_, ?_, ?_, ?_⟩
  · intro h
    simp [processExit, mainRun, runBody, h]
  · intro h1 h2
    simp [processExit, mainRun, runBody, h1, h2]
  · intro h1 h2 hall
    have h3 := (execCmds_success env.cmd_rc cmds 1 hall).2
    simp [processExit, mainRun, runBody, h1, h2, h3]
  · intro h1 h2 k hk hf hz
    have h3 := (execCmds_fail env.cmd_rc cmds 1 k hk hf hz).2
    simp [processExit, mainRun, runBody, h1, h2, h3]

/-- Counterexample to C5 as stated: a synchronizer failure with exit code
23 yields process exit code 1, not the exit code 23 of that stage. -/
theorem C5_exit_codes_counterexample :
    processExit (RunEnv.mk true 0 23 0 (fun _ _ => 0) 0 0 false) ["true"] = 1 ∧
    processExit (RunEnv.mk true 0 23 0 (fun _ _ => 0) 0 0 false) ["true"] ≠ 23 := by
  decide

/-- Witness for C5: a sync failure exits 1; a first-command failure with
exit code 5 exits 5. -/
theorem C5_exit_codes_witness :
    processExit (RunEnv.mk true 0 23 0 (fun _ _ => 0) 0 0 false) ["true"] = 1 ∧
    processExit (RunEnv.mk true 0 0 0 (fun _ _ => 5) 0 0 false) ["false"] = 5 :=
  ⟨(C5_exit_codes (RunEnv.mk true 0 23 0 (fun _ _ => 0) 0 0 false) ["true"]).1
     (by decide),
   by
     have h := (C5_exit_codes (RunEnv.mk true 0 0 0 (fun _ _ => 5) 0 0 false)
       ["false"]).2.2.2 rfl rfl 0 (by decide) (by decide)
       (fun j hj => absurd hj (by omega))
     simpa using h⟩

/-- C8 (amended): load_config is fatal when the configuration file is
absent or when slots, containerPrefix or stateDir is missing; a missing
artifactsDirDefault is not fatal and defaults to "./artifacts". -/
theorem C8_load_config_required (d : ConfigJson) :
    configOk (load_config none) = false ∧
    ((d.slotsField = none ∨ d.containerPfxField = none ∨ d.stateDirField = none) →
      configOk (load_config (some d)) = false) ∧
    (∀ s cp sd, d.slotsField = some s → d.containerPfxField = some cp →
      d.stateDirField = some sd →
      load_config (some d) =
        Except.ok (HarnessConfig.mk s cp sd (d.artifactsField.getD "./artifacts"))) := by
  refine ⟨rfl, ?_, ?_⟩
  · intro h
    rcases h with h | h | h
    · simp [load_config, h, configOk]
    · cases hs : d.slotsField <;> simp [load_config, hs, h, configOk]
    · cases hs : d.slotsField <;> cases hc : d.containerPfxField <;>
        simp [load_config, hs, hc, h, configOk]
  · intro s cp sd hs hc hsd
    simp [load_config, hs, hc, hsd]

/-- Counterexample to C8 as stated: with slots, containerPrefix and
stateDir present but artifactsDirDefault absent, load_config does not
raise: it returns a configuration with the default artifacts directory. -/
theorem C8_load_config_counterexample :
    load_config (some (ConfigJson.mk (some 4) (some "dev") (some ["var"]) none)) =
      Except.ok (HarnessConfig.mk 4 "dev" ["var"] "./artifacts") := rfl

/-- Witness for C8: a missing file and a missing slots key are fatal; a
full record loads. -/
theorem C8_load_config_required_witness :
    configOk (load_config none) = false ∧
    configOk (load_config
      (some (ConfigJson.mk none (some "dev") (some ["var"]) (some "a")))) = false ∧
    load_config (some (ConfigJson.mk (some 4) (some "dev") (some ["var"]) (some "a"))) =
      Except.ok (HarnessConfig.mk 4 "dev" ["var"] "a") :=
  ⟨(C8_load_config_required (ConfigJson.mk none (some "dev") (some ["var"]) (some "a"))).1,
   (C8_load_config_required
     (ConfigJson.mk none (some "dev") (some ["var"]) (some "a"))).2.1 (Or.inl rfl),
   (C8_load_config_required
     (ConfigJson.mk (some 4) (some "dev") (some ["var"]) (some "a"))).2.2
     4 "dev" ["var"] rfl rfl rfl⟩

end DevenvHarness
